import Mathlib

/-!
# RFP-Genius core: verification of the extraction pipeline and the PDF viewer

This development gives a shallow embedding of the two core components of the
repository and proves the specified properties about them:

* `AppComponent` (file `app.component.ts`): batch validation (`handleFiles`)
  and sequential text extraction (`processFiles`).
* `PdfViewerComponent` (file `pdf-viewer.component.ts`): document loading,
  page navigation, zooming and render scheduling, embedded as a small-step
  interleaving semantics so that the behaviour of overlapping asynchronous
  operations can be analysed.

External collaborators (pdf.js, the DOM) are modelled by their contracts:
a submitted file is its name plus a parse outcome (failure, or the list of
pages, each page being the ordered list of its text fragments); a render
task, once cancelled, never writes to the shared surface.
-/

/-- A submitted file: its name and its parse outcome.
`content = none` models a file that fails to open or parse;
`content = some pages` gives, for each page in order, the ordered text
fragments of that page. -/
structure PFile where
  name : String
  content : Option (List (List String))
deriving Repr, DecidableEq

/-- The observable state of `AppComponent` (the signals relevant to file
handling and extraction). Chat history entries and the viewed file are
opaque strings. -/
structure AppState where
  knowledgeBase : String
  chatHistory : List String
  selectedFiles : Option (List PFile)
  processedFileNames : List String
  processingSuccess : Option String
  fileError : Option String
  error : Option String
  showHistory : Bool
  pdfToView : Option String
  processingFiles : Bool
  currentlyProcessingFile : Option String
deriving Repr, DecidableEq

/-- `file.name.toLowerCase().endsWith('.pdf')` from `handleFiles`, stated
over the character list of the name (ASCII lowercasing). -/
def endsWithPdf (name : String) : Bool :=
  ".pdf".data.isSuffixOf (name.data.map Char.toLower)

/-- The validation error message built in `handleFiles`. -/
def nonPdfMessage (names : List String) : String :=
  "Please upload only PDF files. The following files were ignored: " ++
    String.intercalate ", " names

/-- `AppComponent.handleFiles`: batch validation.  If any file lacks the
`.pdf` extension the whole batch is rejected with a message naming the
offenders and the selection is cleared; otherwise the selection is stored
and the knowledge base, processed names and chat history are reset. -/
def handleFiles (s : AppState) (files : Option (List PFile)) : AppState :=
  match files with
  | none => s
  | some fs =>
    if fs.isEmpty then s
    else
      let nonPdf := fs.filter (fun f => !endsWithPdf f.name)
      if !nonPdf.isEmpty then
        { s with fileError := some (nonPdfMessage (nonPdf.map (·.name))),
                 selectedFiles := none }
      else
        { s with pdfToView := none,
                 selectedFiles := some fs,
                 processingSuccess := none,
                 knowledgeBase := "",
                 processedFileNames := [],
                 chatHistory := [],
                 showHistory := false,
                 error := none,
                 fileError := none }

/-- `textContent.items.map(item => item.str).join(' ')`: the text of one
page, fragments joined by a single space. -/
def pageText (fragments : List String) : String :=
  String.intercalate " " fragments

/-- The extraction loop of `processFiles`: files in input order, pages in
ascending order, `combinedText += pageText + '\n\n'` per page; the first
file that fails to open or parse aborts the whole loop. -/
def extractLoop : List PFile → String → Option String
  | [], acc => some acc
  | f :: rest, acc =>
    match f.content with
    | none => none
    | some pages =>
      extractLoop rest (pages.foldl (fun a pg => a ++ pageText pg ++ "\n\n") acc)

/-- The generic failure message set by `processFiles` on any read/parse error. -/
def processingErrorMessage : String :=
  "Failed to read or parse one or more PDF files. Please ensure they are valid and not corrupted."

/-- The success message set by `processFiles`. -/
def successMessage (n : Nat) : String :=
  "Successfully processed " ++ toString n ++ " document(s)."

/-- The state of `processFiles` after its synchronous prefix, i.e. before
any file is read: viewer hidden, processing flag on, error cleared, chat
history cleared, file error cleared, success message cleared, knowledge
base cleared.  `processedFileNames` and `selectedFiles` are not touched
here. -/
def processStart (s : AppState) : AppState :=
  { s with pdfToView := none,
           processingFiles := true,
           error := none,
           chatHistory := [],
           fileError := none,
           processingSuccess := none,
           knowledgeBase := "" }

/-- The observable state at the suspension point while file `k` (0-based)
of the batch is being read: `currentlyProcessingFile` names it, nothing
else has changed since `processStart`. -/
def processMid (s : AppState) (fs : List PFile) (k : Nat) : AppState :=
  { processStart s with currentlyProcessingFile := (fs[k]?).map (·.name) }

/-- `AppComponent.processFiles`: the final state after the whole call
(success commit, or failure) as a function of the pre-call state. -/
def processFiles (s : AppState) : AppState :=
  match s.selectedFiles with
  | none => s
  | some fs =>
    if fs.isEmpty then s
    else
      let s1 := processStart s
      match extractLoop fs "" with
      | some combined =>
        { s1 with knowledgeBase := combined,
                  processedFileNames := fs.map (·.name),
                  processingSuccess := some (successMessage fs.length),
                  selectedFiles := none,
                  processingFiles := false,
                  currentlyProcessingFile := none }
      | none =>
        { s1 with error := some processingErrorMessage,
                  selectedFiles := none,
                  processingFiles := false,
                  currentlyProcessingFile := none }

/-- Concatenation of a list of strings (spec-side helper). -/
def strConcat : List String → String
  | [] => ""
  | x :: rest => x ++ strConcat rest

/-- The committed knowledge text for one successfully parsed file, stated
as a closed formula: pages in order, each page's fragments joined by one
space followed by one paragraph separator. -/
def fileTextOf (f : PFile) : String :=
  strConcat ((f.content.getD []).map (fun pg => pageText pg ++ "\n\n"))

/-- A reference state used by concrete examples and witnesses. -/
def baseState : AppState :=
  { knowledgeBase := ""
    chatHistory := []
    selectedFiles := none
    processedFileNames := []
    processingSuccess := none
    fileError := none
    error := none
    showHistory := false
    pdfToView := none
    processingFiles := false
    currentlyProcessingFile := none }

example :
    (processFiles { baseState with
        selectedFiles := some [⟨"x.pdf", some [["A"], ["B"]]⟩, ⟨"y.pdf", some [["C"]]⟩] }).knowledgeBase
      = "A\n\nB\n\nC\n\n" := by decide

example :
    (processFiles { baseState with
        knowledgeBase := "OLD"
        selectedFiles := some [⟨"x.pdf", some [["A"]]⟩, ⟨"y.pdf", none⟩] }).knowledgeBase
      = "" := by decide

example :
    (handleFiles baseState (some [⟨"a.pdf", some []⟩, ⟨"b.txt", some []⟩, ⟨"c.pdf", some []⟩])).fileError
      = some (nonPdfMessage ["b.txt"]) := by decide

/-! ## Helper lemmas for the extraction pipeline -/

theorem strAppend_assoc (a b c : String) : a ++ b ++ c = a ++ (b ++ c) := by
  apply String.ext
  simp [String.data_append, List.append_assoc]

theorem strAppend_empty (a : String) : a ++ "" = a := by
  apply String.ext
  simp [String.data_append]

theorem foldl_pageText (pages : List (List String)) (acc : String) :
    pages.foldl (fun a pg => a ++ pageText pg ++ "\n\n") acc
      = acc ++ strConcat (pages.map (fun pg => pageText pg ++ "\n\n")) := by
  induction pages generalizing acc with
  | nil => simp [strConcat, strAppend_empty]
  | cons pg rest ih =>
      simp only [List.foldl_cons, List.map_cons, strConcat, ih]
      simp only [strAppend_assoc]

theorem extract_ok (fs : List PFile) (acc : String)
    (h : ∀ f ∈ fs, f.content ≠ none) :
    extractLoop fs acc = some (acc ++ strConcat (fs.map fileTextOf)) := by
  induction fs generalizing acc with
  | nil => simp [extractLoop, strConcat, strAppend_empty]
  | cons f rest ih =>
      have hf : f.content ≠ none := h f (List.mem_cons_self f rest)
      cases hc : f.content with
      | none => exact absurd hc hf
      | some pages =>
          have hrest : ∀ g ∈ rest, g.content ≠ none :=
            fun g hg => h g (List.mem_cons_of_mem f hg)
          simp only [extractLoop, hc, foldl_pageText, List.map_cons, strConcat]
          rw [ih _ hrest, strAppend_assoc]
          simp [fileTextOf, hc]

theorem extract_abort (pre : List PFile) (bad : PFile) (rest : List PFile)
    (acc : String) (h : bad.content = none) :
    extractLoop (pre ++ bad :: rest) acc = none := by
  induction pre generalizing acc with
  | nil => simp [extractLoop, h]
  | cons f pre ih =>
      cases hc : f.content with
      | none => simp [extractLoop, hc]
      | some pages => simp [extractLoop, hc, ih]

theorem filter_names (q : String → Bool) (fs : List PFile) :
    (fs.filter (fun f => q f.name)).map (·.name) = (fs.map (·.name)).filter q := by
  induction fs with
  | nil => rfl
  | cons f rest ih =>
      by_cases hq : q f.name
      · simp [List.filter, hq, ih]
      · simp [List.filter, hq, ih]

/-! ## Theorems about the extraction pipeline -/

/-- Concrete pre-call state for the all-or-nothing counterexample:
a non-empty knowledge buffer and a pending selection whose second file
fails to parse. -/
def c1PreState : AppState :=
  { baseState with
      knowledgeBase := "OLD"
      selectedFiles := some [⟨"x.pdf", some [["A"]]⟩, ⟨"y.pdf", none⟩] }

/-- C1 counterexample: with pre-call knowledge buffer `"OLD"` and inputs
`[x.pdf, y.pdf]` where `y.pdf` fails to parse, `processFiles` fails (the
generic error is set) yet the final knowledge buffer is `""`, not the
pre-call value — the buffer is not "unchanged from before the call". -/
theorem processFiles_failure_keeps_cleared_buffer_cx :
    (processFiles c1PreState).error = some processingErrorMessage
    ∧ (processFiles c1PreState).knowledgeBase ≠ c1PreState.knowledgeBase
    ∧ (processFiles c1PreState).knowledgeBase = "" := by
  refine ⟨by decide, by decide, by decide⟩

/-- C1 (amended): if any file of the submitted batch fails to open or
parse, processing aborts at the first failure (files after it never
influence the outcome), no partial text is ever committed — the final
knowledge buffer is empty, since it is cleared unconditionally at the
start of the call — `processedFileNames` is not extended, the generic
failure message is set, and the pending selection is cleared. -/
theorem processFiles_failure_all_or_nothing
    (s : AppState) (pre : List PFile) (bad : PFile) (rest : List PFile)
    (hsel : s.selectedFiles = some (pre ++ bad :: rest))
    (hbad : bad.content = none) :
    (processFiles s).knowledgeBase = ""
    ∧ (processFiles s).processedFileNames = s.processedFileNames
    ∧ (processFiles s).selectedFiles = none
    ∧ (processFiles s).error = some processingErrorMessage
    ∧ ∀ rest' : List PFile,
        processFiles { s with selectedFiles := some (pre ++ bad :: rest') }
          = processFiles s := by
  have hne : ¬ (pre ++ bad :: rest).isEmpty := by
    cases pre <;> simp [List.isEmpty]
  have habort := extract_abort pre bad rest "" hbad
  refine ⟨?_, ?_, ?_, ?_, ?_⟩ <;>
    simp_all [processFiles, processStart, extract_abort]

/-- Witness for `processFiles_failure_all_or_nothing` at the concrete
state `c1PreState`. -/
theorem processFiles_failure_all_or_nothing_witness :
    (processFiles c1PreState).knowledgeBase = ""
    ∧ (processFiles c1PreState).processedFileNames = c1PreState.processedFileNames
    ∧ (processFiles c1PreState).selectedFiles = none
    ∧ (processFiles c1PreState).error = some processingErrorMessage := by
  have h := processFiles_failure_all_or_nothing c1PreState
    [⟨"x.pdf", some [["A"]]⟩] ⟨"y.pdf", none⟩ [] (by decide) (by decide)
  exact ⟨h.1, h.2.1, h.2.2.1, h.2.2.2.1⟩

/-- Concrete state for the committed-text counterexample: `x.pdf` has two
pages `"A"` and `"B"`, `y.pdf` has one page `"C"`. -/
def c2PreState : AppState :=
  { baseState with
      selectedFiles := some [⟨"x.pdf", some [["A"], ["B"]]⟩, ⟨"y.pdf", some [["C"]]⟩] }

/-- C2 counterexample: on inputs `[x.pdf (pages "A","B"), y.pdf (page
"C")]` the committed knowledge text is `"A\n\nB\n\nC\n\n"` — the
paragraph separator is appended after every *page* — not the claimed
`"A B\n\n"` followed by `"C\n\n"` (separator per file). -/
theorem processFiles_committed_text_cx :
    (processFiles c2PreState).knowledgeBase = "A\n\nB\n\nC\n\n"
    ∧ (processFiles c2PreState).knowledgeBase ≠ "A B\n\n" ++ "C\n\n" := by
  refine ⟨by decide, by decide⟩

/-- C2 (amended): for every successfully processed batch the committed
knowledge text is, for each file in input order and each page in
ascending order, the page's fragments joined by a single space followed
by a paragraph separator (two newlines) appended per *page*. -/
theorem processFiles_committed_text_per_page
    (s : AppState) (fs : List PFile)
    (hsel : s.selectedFiles = some fs) (hne : fs ≠ [])
    (hok : ∀ f ∈ fs, f.content ≠ none) :
    (processFiles s).knowledgeBase = strConcat (fs.map fileTextOf)
    ∧ (processFiles s).processingSuccess = some (successMessage fs.length) := by
  have hne' : ¬ fs.isEmpty := by cases fs <;> simp_all [List.isEmpty]
  have h := extract_ok fs "" hok
  have hpre : ("" : String) ++ strConcat (fs.map fileTextOf) = strConcat (fs.map fileTextOf) := by
    apply String.ext
    simp [String.data_append]
  simp [processFiles, hsel, hne', h, hpre]

/-- Witness for `processFiles_committed_text_per_page` at the concrete
state `c2PreState`: the spec example inputs yield `"A\n\nB\n\nC\n\n"`. -/
theorem processFiles_committed_text_per_page_witness :
    (processFiles c2PreState).knowledgeBase
      = strConcat ([⟨"x.pdf", some [["A"], ["B"]]⟩, (⟨"y.pdf", some [["C"]]⟩ : PFile)].map fileTextOf)
    ∧ strConcat ([⟨"x.pdf", some [["A"], ["B"]]⟩, (⟨"y.pdf", some [["C"]]⟩ : PFile)].map fileTextOf)
      = "A\n\nB\n\nC\n\n" := by
  have h := processFiles_committed_text_per_page c2PreState
    [⟨"x.pdf", some [["A"], ["B"]]⟩, ⟨"y.pdf", some [["C"]]⟩]
    (by decide) (by decide) (by decide)
  exact ⟨h.1, by decide⟩

/-- C3: batch validation is atomic.  If any submitted input lacks the
`.pdf` extension, `handleFiles` rejects the whole batch: the error
message names every offending input, the knowledge buffer, processed
names and chat history are untouched, the pending selection is cleared,
and no file content is ever inspected (the outcome depends only on the
file names, so zero open/parse calls occur). -/
theorem handleFiles_batch_validation_atomic
    (s : AppState) (fs : List PFile) (hne : fs ≠ [])
    (hbad : ∃ f ∈ fs, endsWithPdf f.name = false) :
    (handleFiles s (some fs)).fileError
        = some (nonPdfMessage ((fs.filter (fun f => !endsWithPdf f.name)).map (·.name)))
    ∧ (handleFiles s (some fs)).knowledgeBase = s.knowledgeBase
    ∧ (handleFiles s (some fs)).processedFileNames = s.processedFileNames
    ∧ (handleFiles s (some fs)).chatHistory = s.chatHistory
    ∧ (handleFiles s (some fs)).selectedFiles = none
    ∧ (∀ f ∈ fs, endsWithPdf f.name = false →
        f.name ∈ (fs.filter (fun f => !endsWithPdf f.name)).map (·.name))
    ∧ ∀ fs' : List PFile, fs'.map (·.name) = fs.map (·.name) →
        handleFiles s (some fs') = handleFiles s (some fs) := by
  obtain ⟨b, hb, hbval⟩ := hbad
  have hmem : b ∈ fs.filter (fun f => !endsWithPdf f.name) :=
    List.mem_filter.mpr ⟨hb, by simp [hbval]⟩
  have hfne : fs.filter (fun f => !endsWithPdf f.name) ≠ [] :=
    List.ne_nil_of_mem hmem
  have hfE : ¬ fs.isEmpty := by cases fs <;> simp_all [List.isEmpty]
  have hfE' : ¬ (fs.filter (fun f => !endsWithPdf f.name)).isEmpty := by
    cases h : fs.filter (fun f => !endsWithPdf f.name) <;> simp_all [List.isEmpty]
  refine ⟨?_, ?_, ?_, ?_, ?_, ?_, ?_⟩
  · simp [handleFiles, hfE, hfE']
  · simp [handleFiles, hfE, hfE']
  · simp [handleFiles, hfE, hfE']
  · simp [handleFiles, hfE, hfE']
  · simp [handleFiles, hfE, hfE']
  · intro f hf hfval
    exact List.mem_map.mpr ⟨f, List.mem_filter.mpr ⟨hf, by simp [hfval]⟩, rfl⟩
  · intro fs' hnames
    have hnE : ¬ fs'.isEmpty := by
      cases fs' <;> cases fs <;> simp_all [List.isEmpty]
    have h1 : (fs'.filter (fun f => !endsWithPdf f.name)).map (·.name)
        = (fs'.map (·.name)).filter (fun n => !endsWithPdf n) :=
      filter_names (fun n => !endsWithPdf n) fs'
    have h2 : (fs.filter (fun f => !endsWithPdf f.name)).map (·.name)
        = (fs.map (·.name)).filter (fun n => !endsWithPdf n) :=
      filter_names (fun n => !endsWithPdf n) fs
    have hfilter : (fs'.filter (fun f => !endsWithPdf f.name)).map (·.name)
        = (fs.filter (fun f => !endsWithPdf f.name)).map (·.name) := by
      rw [h1, h2, hnames]
    have hfne' : ¬ (fs'.filter (fun f => !endsWithPdf f.name)).isEmpty := by
      cases h : fs'.filter (fun f => !endsWithPdf f.name) with
      | nil => rw [h] at hfilter; simp at hfilter; simp_all
      | cons x xs => simp [List.isEmpty]
    simp [handleFiles, hfE, hfE', hnE, hfne', hfilter]

/-- Witness for `handleFiles_batch_validation_atomic` at the spec's
example `[a.pdf, b.txt, c.pdf]`: the batch is rejected and `b.txt` is
named as offending. -/
theorem handleFiles_batch_validation_atomic_witness :
    (handleFiles baseState (some [⟨"a.pdf", some []⟩, ⟨"b.txt", some []⟩, ⟨"c.pdf", some []⟩])).fileError
        = some (nonPdfMessage ["b.txt"])
    ∧ (handleFiles baseState (some [⟨"a.pdf", some []⟩, ⟨"b.txt", some []⟩, ⟨"c.pdf", some []⟩])).selectedFiles
        = none := by
  have h := handleFiles_batch_validation_atomic baseState
    [⟨"a.pdf", some []⟩, ⟨"b.txt", some []⟩, ⟨"c.pdf", some []⟩]
    (by decide) ⟨⟨"b.txt", some []⟩, by decide, by decide⟩
  refine ⟨?_, h.2.2.2.2.1⟩
  rw [h.1]
  decide

/-- C9: a file's name appears in `processedFileNames` only after that file
(and, in the code, the whole batch) has been fully consumed.  With the
pre-call value `[]` (as established by `handleFiles`), every observable
state while any file is still being read shows `processedFileNames = []`;
on failure it stays `[]`; only the success commit — after every file has
been consumed — publishes the names. -/
theorem processedNames_only_after_consumption
    (s : AppState) (fs : List PFile)
    (hsel : s.selectedFiles = some fs)
    (hpre : s.processedFileNames = []) :
    (∀ k, (processMid s fs k).processedFileNames = [])
    ∧ (extractLoop fs "" = none → (processFiles s).processedFileNames = [])
    ∧ ((∀ f ∈ fs, f.content ≠ none) → fs ≠ [] →
        (processFiles s).processedFileNames = fs.map (·.name)) := by
  refine ⟨?_, ?_, ?_⟩
  · intro k
    simp [processMid, processStart, hpre]
  · intro hfail
    by_cases hE : fs.isEmpty
    · simp [processFiles, hsel, hE, hpre]
    · simp [processFiles, hsel, hE, hfail, processStart, hpre]
  · intro hok hne
    have hE : ¬ fs.isEmpty := by cases fs <;> simp_all [List.isEmpty]
    simp [processFiles, hsel, hE, extract_ok fs "" hok]

/-- Witness for `processedNames_only_after_consumption` at `c1PreState`:
during processing and after the failing batch, `processedFileNames`
remains empty. -/
theorem processedNames_only_after_consumption_witness :
    (processMid c1PreState [⟨"x.pdf", some [["A"]]⟩, ⟨"y.pdf", none⟩] 1).processedFileNames = []
    ∧ (processFiles c1PreState).processedFileNames = [] := by
  have h := processedNames_only_after_consumption c1PreState
    [⟨"x.pdf", some [["A"]]⟩, ⟨"y.pdf", none⟩] (by decide) (by decide)
  exact ⟨h.1 1, h.2.1 (by decide)⟩

/-- C10 (implicit): `processFiles` on a non-empty selection clears the
chat history and the knowledge buffer in its synchronous prefix, before
any file is read (`processStart`), and on the failure path neither is
restored: after a failed batch both remain empty. -/
theorem processFiles_clears_history_and_buffer
    (s : AppState) (fs : List PFile)
    (hsel : s.selectedFiles = some fs) (hne : fs ≠ []) :
    (processStart s).chatHistory = []
    ∧ (processStart s).knowledgeBase = ""
    ∧ (∀ k, (processMid s fs k).chatHistory = [] ∧ (processMid s fs k).knowledgeBase = "")
    ∧ (extractLoop fs "" = none →
        (processFiles s).chatHistory = []
        ∧ (processFiles s).knowledgeBase = ""
        ∧ (processFiles s).error = some processingErrorMessage) := by
  have hE : ¬ fs.isEmpty := by cases fs <;> simp_all [List.isEmpty]
  refine ⟨rfl, rfl, fun k => ⟨rfl, rfl⟩, fun hfail => ?_⟩
  refine ⟨?_, ?_, ?_⟩ <;> simp [processFiles, hsel, hE, hfail, processStart]

/-- Witness for `processFiles_clears_history_and_buffer` at a state with
non-empty chat history and knowledge buffer and a failing batch. -/
theorem processFiles_clears_history_and_buffer_witness :
    (processFiles { c1PreState with chatHistory := ["old chat"] }).chatHistory = []
    ∧ (processFiles { c1PreState with chatHistory := ["old chat"] }).knowledgeBase = "" := by
  have h := processFiles_clears_history_and_buffer
    { c1PreState with chatHistory := ["old chat"] }
    [⟨"x.pdf", some [["A"]]⟩, ⟨"y.pdf", none⟩] (by decide) (by decide)
  exact ⟨(h.2.2.2 (by decide)).1, (h.2.2.2 (by decide)).2.1⟩

/-! ## Model of `PdfViewerComponent`

The component's asynchronous methods (`loadPdf`, `renderPage`) are
embedded as a small-step interleaving semantics: each `await` is a
suspension point, the suspended continuation becomes a pending task, and
a schedule (a list of commands) decides which pending task resumes when.
All operations run on one logical thread; a command's synchronous prefix
executes atomically, exactly as in the browser's event loop. -/

/-- A file handed to the viewer: pdf.js answers `getDocument` with a
fresh handle `docId` having `numPages` pages, or fails when `ok = false`. -/
structure VFile where
  docId : Nat
  numPages : Nat
  ok : Bool
deriving Repr, DecidableEq

/-- The component's signals and private fields.  `scaleQ` is the zoom
scale in quarter units: the component's `scale` (a JS number that on
every reachable value is an exact multiple of 0.25, hence exactly
representable) equals `scaleQ / 4`.  So `minScale = 0.5` is `2`, the
default `1.5` is `6`, `maxScale = 3.0` is `12`, and the step `0.25`
is `1`. -/
structure ViewerState where
  isLoading : Bool
  error : Option String
  currentPage : Nat
  totalPages : Nat
  scaleQ : Nat
  pdfDoc : Option Nat
  renderTask : Option Nat
deriving Repr, DecidableEq

/-- The scale as the rational number shown to the user. -/
def ViewerState.scaleVal (st : ViewerState) : ℚ := (st.scaleQ : ℚ) / 4

/-- A suspended continuation of `loadPdf` or `renderPage`:

* `loadDestroy f` — inside `loadPdf f`, awaiting `pdfDoc.destroy()`;
* `loadBuf f` — awaiting `file.arrayBuffer()`;
* `loadGet f` — awaiting `getDocument(...).promise`;
* `renderGetPage rid d p` — inside `renderPage p` on document `d`,
  awaiting `pdfDoc.getPage(p)`; `rid` identifies this render request;
* `renderDraw rid d p sQ` — awaiting `renderTask.promise` after the
  canvas was resized and `page.render` started at scale `sQ`. -/
inductive VTask where
  | loadDestroy (f : VFile)
  | loadBuf (f : VFile)
  | loadGet (f : VFile)
  | renderGetPage (rid docId p : Nat)
  | renderDraw (rid docId p sQ : Nat)
deriving Repr, DecidableEq

/-- A configuration: component state, pending tasks, and the observable
history of the external world: every `destroy()` call (in order), every
cancelled render id, the last completed write to the canvas surface
(writer render id, document, page, scale), and a counter for fresh
render ids. -/
structure Config where
  st : ViewerState
  tasks : List VTask
  destroys : List Nat
  cancelled : List Nat
  surface : Option (Nat × Nat × Nat × Nat)
  nextRid : Nat
deriving Repr, DecidableEq

/-- The synchronous prefix of `renderPage(p)`: return unless a document
is attached and `1 ≤ p ≤ totalPages`; cancel the tracked render task if
any (`renderTask.cancel()` — note the field is not nulled here); then
start `getPage(p)` and suspend. -/
def renderStart (p : Nat) (c : Config) : Config :=
  match c.st.pdfDoc with
  | none => c
  | some d =>
    if p < 1 ∨ c.st.totalPages < p then c
    else
      let c1 : Config :=
        match c.st.renderTask with
        | some t => { c with cancelled := t :: c.cancelled }
        | none => c
      { c1 with tasks := c1.tasks ++ [VTask.renderGetPage c1.nextRid d p],
                nextRid := c1.nextRid + 1 }

/-- The error message set by `loadPdf` on parse failure. -/
def loadFailMessage : String := "Failed to load or parse the PDF file."

/-- The synchronous prefix of `loadPdf(f)`: set `isLoading`, clear the
error, reset page, page count and scale; if a document is attached,
start `destroy()` on it and suspend (the `pdfDoc` field is nulled only
when that await returns), else start `arrayBuffer()` and suspend. -/
def loadStart (f : VFile) (c : Config) : Config :=
  let st1 := { c.st with isLoading := true, error := none, currentPage := 1,
                         totalPages := 0, scaleQ := 6 }
  match c.st.pdfDoc with
  | some d =>
    { c with st := st1, destroys := c.destroys ++ [d],
             tasks := c.tasks ++ [VTask.loadDestroy f] }
  | none => { c with st := st1, tasks := c.tasks ++ [VTask.loadBuf f] }

/-- Resuming a suspended continuation (the code after the `await` runs,
up to the next suspension point or the end of the method).

* after `destroy()`: null `pdfDoc`, start `arrayBuffer()`;
* after `arrayBuffer()`: start `getDocument`;
* after `getDocument`: on success attach the handle, publish the page
  count, call `renderPage(currentPage)` (whose synchronous prefix runs
  now), then `finally` clears `isLoading`; on failure set the error and
  clear `isLoading`;
* after `getPage`: read the current scale, resize the canvas, store the
  new render task in `renderTask`, start drawing and suspend;
* after `render(...).promise` settles: a cancelled task never writes to
  the surface (cooperative, side-effect-free cancellation); an
  uncancelled one has written its pixels; then `renderTask` is nulled. -/
def resumeTask (t : VTask) (c : Config) : Config :=
  match t with
  | .loadDestroy f =>
      { c with st := { c.st with pdfDoc := none },
               tasks := c.tasks ++ [VTask.loadBuf f] }
  | .loadBuf f => { c with tasks := c.tasks ++ [VTask.loadGet f] }
  | .loadGet f =>
      if f.ok then
        let c1 := { c with st := { c.st with pdfDoc := some f.docId,
                                             totalPages := f.numPages } }
        let c2 := renderStart c1.st.currentPage c1
        { c2 with st := { c2.st with isLoading := false } }
      else
        { c with st := { c.st with error := some loadFailMessage,
                                   isLoading := false } }
  | .renderGetPage rid d p =>
      { c with st := { c.st with renderTask := some rid },
               tasks := c.tasks ++ [VTask.renderDraw rid d p c.st.scaleQ] }
  | .renderDraw rid d p sQ =>
      let c1 :=
        if rid ∈ c.cancelled then c
        else { c with surface := some (rid, d, p, sQ) }
      { c1 with st := { c1.st with renderTask := none } }

/-- One step of the system: a user command (`load` via the `file` input
effect, `nextPage`, `prevPage`, `zoomIn`, `zoomOut` — each runs its
synchronous body atomically) or the scheduler resuming pending task `i`. -/
inductive VCmd where
  | load (f : VFile)
  | next
  | prev
  | zoomIn
  | zoomOut
  | resume (i : Nat)
deriving Repr, DecidableEq

/-- `nextPage`: guarded increment then `renderPage(currentPage)`. -/
def stepV (c : Config) (cmd : VCmd) : Config :=
  match cmd with
  | .load f => loadStart f c
  | .next =>
      if c.st.currentPage < c.st.totalPages then
        let c1 := { c with st := { c.st with currentPage := c.st.currentPage + 1 } }
        renderStart c1.st.currentPage c1
      else c
  | .prev =>
      if 1 < c.st.currentPage then
        let c1 := { c with st := { c.st with currentPage := c.st.currentPage - 1 } }
        renderStart c1.st.currentPage c1
      else c
  | .zoomIn =>
      if c.st.scaleQ < 12 then
        let c1 := { c with st := { c.st with scaleQ := min 12 (c.st.scaleQ + 1) } }
        renderStart c1.st.currentPage c1
      else c
  | .zoomOut =>
      if 2 < c.st.scaleQ then
        let c1 := { c with st := { c.st with scaleQ := c.st.scaleQ - 1 } }
        renderStart c1.st.currentPage c1
      else c
  | .resume i =>
      match c.tasks[i]? with
      | none => c
      | some t => resumeTask t { c with tasks := c.tasks.eraseIdx i }

/-- Run a schedule from a configuration. -/
def runV (c : Config) (cmds : List VCmd) : Config := cmds.foldl stepV c

/-- The initial configuration (the component's field initializers). -/
def initViewer : Config :=
  { st := { isLoading := true, error := none, currentPage := 1, totalPages := 0,
            scaleQ := 6, pdfDoc := none, renderTask := none },
    tasks := [], destroys := [], cancelled := [], surface := none, nextRid := 0 }

example :
    (runV initViewer [VCmd.load ⟨1, 2, true⟩, VCmd.resume 0, VCmd.resume 0,
      VCmd.resume 0, VCmd.resume 0]).surface = some (0, 1, 1, 6) := by decide

example :
    (runV initViewer [VCmd.load ⟨1, 2, true⟩, VCmd.resume 0, VCmd.resume 0,
      VCmd.resume 0, VCmd.resume 0]).tasks = [] := by decide

/-! ## Concrete schedules exposing the unguarded races -/

/-- Document A: handle 1, two pages; document B: handle 2, three pages. -/
def docA : VFile := ⟨1, 2, true⟩

/-- See `docA`. -/
def docB : VFile := ⟨2, 3, true⟩

/-- Overlapping loads: `load docA` is issued, then `load docB` while A is
still awaiting its bytes; B completes fully (including its initial
render); then A's pending continuations run to completion. -/
def overlapLoadSchedule : List VCmd :=
  [VCmd.load docA, VCmd.load docB,
   VCmd.resume 1, VCmd.resume 1, VCmd.resume 1, VCmd.resume 1,
   VCmd.resume 0, VCmd.resume 0, VCmd.resume 0, VCmd.resume 0]

/-- C4 counterexample: `loadPdf` has no generation guard.  On
`overlapLoadSchedule`, after the newer load (document 2) has completed —
`pdfDoc = some 2`, `totalPages = 3`, page 1 of document 2 on the surface
— the earlier load's continuation still runs: the final state has
`pdfDoc = some 1` and `totalPages = 2` (the earlier load overwrote the
newer call's state), document 1's stale content is the last render on
the surface, and `destroys = []` — neither handle was ever released, so
the superseded document was not released exactly once. -/
theorem loadPdf_overlap_not_superseded_cx :
    (runV initViewer (overlapLoadSchedule.take 6)).st.pdfDoc = some 2
    ∧ (runV initViewer (overlapLoadSchedule.take 6)).st.totalPages = 3
    ∧ (runV initViewer (overlapLoadSchedule.take 6)).surface = some (0, 2, 1, 6)
    ∧ (runV initViewer overlapLoadSchedule).tasks = []
    ∧ (runV initViewer overlapLoadSchedule).st.pdfDoc = some 1
    ∧ (runV initViewer overlapLoadSchedule).st.totalPages = 2
    ∧ (runV initViewer overlapLoadSchedule).surface = some (1, 1, 1, 6)
    ∧ (runV initViewer overlapLoadSchedule).destroys = [] := by
  refine ⟨by decide, by decide, by decide, by decide, by decide, by decide,
    by decide, by decide⟩

/-- A 5-page document for the render-race schedule. -/
def docC : VFile := ⟨1, 5, true⟩

/-- Load `docC` to completion, then issue `nextPage()` twice in quick
succession — the second before the first render's `getPage` await has
resolved (so before the first `RenderTask` is registered) — and let the
second render complete before the first. -/
def renderRaceSchedule : List VCmd :=
  [VCmd.load docC, VCmd.resume 0, VCmd.resume 0, VCmd.resume 0, VCmd.resume 0,
   VCmd.next, VCmd.next,
   VCmd.resume 1, VCmd.resume 1, VCmd.resume 0, VCmd.resume 0]

/-- C5 failing input: after `renderRaceSchedule` all renders have settled
(`tasks = []`), the last requested pair is page 3 at the current scale
(`currentPage = 3`), yet the surface holds the render of page 2 (writer
id 1, document 1, page 2) — and no render was ever cancelled
(`cancelled = []`), because `renderPage`'s cancel check runs before the
previous request has registered its task.  This contradicts the code's
own comment "If a render is already in progress, cancel it". -/
theorem renderPage_last_write_wins_violated :
    (runV initViewer renderRaceSchedule).tasks = []
    ∧ (runV initViewer renderRaceSchedule).st.currentPage = 3
    ∧ (runV initViewer renderRaceSchedule).st.scaleQ = 6
    ∧ (runV initViewer renderRaceSchedule).surface = some (1, 1, 2, 6)
    ∧ (runV initViewer renderRaceSchedule).cancelled = [] := by
  refine ⟨by decide, by decide, by decide, by decide, by decide⟩

/-- A 5-page document with handle 2, for the page-invariant schedule. -/
def docD : VFile := ⟨2, 5, true⟩

/-- `load docA` (2 pages), then `load docD` (5 pages) while A is pending;
D completes, the user navigates to page 4, and only then does A's stale
`getDocument` continuation resolve and publish `totalPages = 2`. -/
def pageRaceSchedule : List VCmd :=
  [VCmd.load docA, VCmd.load docD,
   VCmd.resume 1, VCmd.resume 1,
   VCmd.next, VCmd.next, VCmd.next,
   VCmd.resume 0, VCmd.resume 4]

/-- C8 counterexample: on `pageRaceSchedule` the final state has
`totalPages = 2 > 0` but `currentPage = 4` — the invariant
`currentPage ≤ pageCount` is violated after an operation (the stale
load's completion). -/
theorem page_invariant_violated_cx :
    (runV initViewer pageRaceSchedule).st.totalPages = 2
    ∧ (runV initViewer pageRaceSchedule).st.currentPage = 4
    ∧ 0 < (runV initViewer pageRaceSchedule).st.totalPages
    ∧ (runV initViewer pageRaceSchedule).st.totalPages
        < (runV initViewer pageRaceSchedule).st.currentPage := by
  refine ⟨by decide, by decide, by decide, by decide⟩

/-! ## Sequential (non-overlapping) loads are safe -/

/-- `load f` followed by enough scheduler steps to run it to completion
(five resumes cover both the with-destroy and without-destroy paths; a
surplus resume on an empty queue is a no-op). -/
def loadSeq (f : VFile) : List VCmd :=
  [VCmd.load f, VCmd.resume 0, VCmd.resume 0, VCmd.resume 0, VCmd.resume 0,
   VCmd.resume 0]

theorem runV_append (c : Config) (l1 l2 : List VCmd) :
    runV c (l1 ++ l2) = runV (runV c l1) l2 :=
  List.foldl_append ..

/-- Running one `load` to completion with no other task pending: the new
document is attached, its page count published, its first page rendered
at the default scale, and the previously attached handle (if any) is
destroyed exactly once. -/
theorem load_drain (f : VFile) (c : Config)
    (hE : c.tasks = []) (hRT : c.st.renderTask = none)
    (hok : f.ok = true) (hnp : 1 ≤ f.numPages)
    (hrid : c.nextRid ∉ c.cancelled) :
    runV c (loadSeq f) =
      { st := { isLoading := false, error := none, currentPage := 1,
                totalPages := f.numPages, scaleQ := 6,
                pdfDoc := some f.docId, renderTask := none },
        tasks := [],
        destroys := c.destroys ++
          (match c.st.pdfDoc with | some d => [d] | none => []),
        cancelled := c.cancelled,
        surface := some (c.nextRid, f.docId, 1, 6),
        nextRid := c.nextRid + 1 } := by
  have hguard : ¬ (1 < 1 ∨ f.numPages < 1) := by omega
  have hnz : ¬ f.numPages = 0 := by omega
  cases hd : c.st.pdfDoc with
  | none =>
      simp [loadSeq, runV, stepV, loadStart, resumeTask, renderStart,
            hE, hd, hRT, hok, hguard, hnz, hrid, List.eraseIdx]
  | some d =>
      simp [loadSeq, runV, stepV, loadStart, resumeTask, renderStart,
            hE, hd, hRT, hok, hguard, hnz, hrid, List.eraseIdx]

/-- C4 (amended): `loadPdf` has no generation guard, so an earlier load
that settles after a newer one overwrites the newer call's state and can
render stale content (`loadPdf_overlap_not_superseded_cx`).  Supersession
is safe only when the loads do not overlap: if load `a` runs to
completion before load `b` begins, then after `b` completes, `a`'s
handle has been released exactly once (`destroys = [a.docId]`), the
state (document handle, page count) is `b`'s, and the surface shows
`b`'s content, never stale `a` content. -/
theorem loadPdf_sequential_supersession
    (a b : VFile) (ha : a.ok = true) (hb : b.ok = true)
    (hna : 1 ≤ a.numPages) (hnb : 1 ≤ b.numPages) :
    (runV initViewer (loadSeq a ++ loadSeq b)).destroys = [a.docId]
    ∧ (runV initViewer (loadSeq a ++ loadSeq b)).st.pdfDoc = some b.docId
    ∧ (runV initViewer (loadSeq a ++ loadSeq b)).st.totalPages = b.numPages
    ∧ (runV initViewer (loadSeq a ++ loadSeq b)).surface = some (1, b.docId, 1, 6)
    ∧ (runV initViewer (loadSeq a ++ loadSeq b)).tasks = [] := by
  have h1 := load_drain a initViewer rfl rfl ha hna (by simp [initViewer])
  have h2 := load_drain b (runV initViewer (loadSeq a))
    (by rw [h1]) (by rw [h1]) hb hnb (by rw [h1]; simp [initViewer])
  rw [runV_append, h2, h1]
  simp [initViewer]

/-- Witness for `loadPdf_sequential_supersession` at `docA`, `docB`. -/
theorem loadPdf_sequential_supersession_witness :
    (runV initViewer (loadSeq docA ++ loadSeq docB)).destroys = [1]
    ∧ (runV initViewer (loadSeq docA ++ loadSeq docB)).st.pdfDoc = some 2
    ∧ (runV initViewer (loadSeq docA ++ loadSeq docB)).surface = some (1, 2, 1, 6) := by
  have h := loadPdf_sequential_supersession docA docB (by decide) (by decide)
    (by decide) (by decide)
  exact ⟨h.1, h.2.1, h.2.2.2.1⟩

/-! ## Cancelled renders are silent and never write -/

/-- The render id that produced the current surface content, if any. -/
def surfaceWriter (c : Config) : Option Nat := c.surface.map (fun x => x.1)

theorem renderStart_st (p : Nat) (c : Config) : (renderStart p c).st = c.st := by
  unfold renderStart
  split
  · rfl
  · split
    · rfl
    · split <;> rfl

theorem renderStart_surface (p : Nat) (c : Config) :
    (renderStart p c).surface = c.surface := by
  unfold renderStart
  split
  · rfl
  · split
    · rfl
    · split <;> rfl

theorem renderStart_cancelled_mem (p rid : Nat) (c : Config)
    (h : rid ∈ c.cancelled) : rid ∈ (renderStart p c).cancelled := by
  unfold renderStart
  split
  · exact h
  · split
    · exact h
    · split
      · exact List.mem_cons_of_mem _ h
      · exact h

theorem stepV_cancelled_mem (c : Config) (cmd : VCmd) (rid : Nat)
    (h : rid ∈ c.cancelled) : rid ∈ (stepV c cmd).cancelled := by
  cases cmd with
  | load f =>
      simp only [stepV, loadStart]
      split <;> exact h
  | next =>
      simp only [stepV]
      split
      · exact renderStart_cancelled_mem _ rid _ h
      · exact h
  | prev =>
      simp only [stepV]
      split
      · exact renderStart_cancelled_mem _ rid _ h
      · exact h
  | zoomIn =>
      simp only [stepV]
      split
      · exact renderStart_cancelled_mem _ rid _ h
      · exact h
  | zoomOut =>
      simp only [stepV]
      split
      · exact renderStart_cancelled_mem _ rid _ h
      · exact h
  | resume i =>
      simp only [stepV]
      split
      · exact h
      · unfold resumeTask
        split
        · exact h
        · exact h
        · split
          · exact renderStart_cancelled_mem _ rid _ h
          · exact h
        · exact h
        · split <;> exact h

theorem stepV_writer (c : Config) (cmd : VCmd) (rid : Nat)
    (hca : rid ∈ c.cancelled)
    (hw : surfaceWriter (stepV c cmd) = some rid) :
    surfaceWriter c = some rid := by
  cases cmd with
  | load f =>
      simp only [stepV, loadStart] at hw
      split at hw <;> exact hw
  | next =>
      simp only [stepV] at hw
      split at hw
      · simp only [surfaceWriter] at hw ⊢
        rw [renderStart_surface] at hw
        exact hw
      · exact hw
  | prev =>
      simp only [stepV] at hw
      split at hw
      · simp only [surfaceWriter] at hw ⊢
        rw [renderStart_surface] at hw
        exact hw
      · exact hw
  | zoomIn =>
      simp only [stepV] at hw
      split at hw
      · simp only [surfaceWriter] at hw ⊢
        rw [renderStart_surface] at hw
        exact hw
      · exact hw
  | zoomOut =>
      simp only [stepV] at hw
      split at hw
      · simp only [surfaceWriter] at hw ⊢
        rw [renderStart_surface] at hw
        exact hw
      · exact hw
  | resume i =>
      simp only [stepV] at hw
      split at hw
      · exact hw
      · unfold resumeTask at hw
        split at hw
        · exact hw
        · exact hw
        · split at hw
          · simp only [surfaceWriter] at hw ⊢
            rw [renderStart_surface] at hw
            exact hw
          · exact hw
        · exact hw
        · split at hw
          · exact hw
          · rename_i hnc
            simp only [surfaceWriter] at hw
            simp at hw
            subst hw
            exact absurd hca hnc

theorem runV_cancelled_writer (c : Config) (cmds : List VCmd) (rid : Nat)
    (hca : rid ∈ c.cancelled)
    (hw : surfaceWriter (runV c cmds) = some rid) :
    surfaceWriter c = some rid := by
  induction cmds generalizing c with
  | nil => exact hw
  | cons cmd rest ih =>
      exact stepV_writer c cmd rid hca
        (ih (stepV c cmd) (stepV_cancelled_mem c cmd rid hca) hw)

/-- C6: cancellation of a superseded render is never surfaced as an
error.  (1) Resuming a cancelled render task (its promise settling) is
silent: the surface, the error signal and the cancellation set are all
unchanged — nothing is reported as a failure.  (2) A render id that was
cancelled never becomes the writer of the surface in any later schedule:
its computed pixels are never written to the shared surface. -/
theorem cancelled_render_silent :
    (∀ (c : Config) (i rid d p sQ : Nat),
        c.tasks[i]? = some (VTask.renderDraw rid d p sQ) →
        rid ∈ c.cancelled →
          (stepV c (VCmd.resume i)).surface = c.surface
          ∧ (stepV c (VCmd.resume i)).st.error = c.st.error
          ∧ (stepV c (VCmd.resume i)).cancelled = c.cancelled)
    ∧ (∀ (c : Config) (cmds : List VCmd) (rid : Nat),
        rid ∈ c.cancelled → surfaceWriter (runV c cmds) = some rid →
          surfaceWriter c = some rid) := by
  constructor
  · intro c i rid d p sQ ht hca
    refine ⟨?_, ?_, ?_⟩ <;> simp [stepV, ht, resumeTask, hca]
  · exact fun c cmds rid => runV_cancelled_writer c cmds rid

/-- A configuration with one pending, already-cancelled render task. -/
def cancelledWitnessConfig : Config :=
  { st := { isLoading := false, error := none, currentPage := 1,
            totalPages := 5, scaleQ := 6, pdfDoc := some 1,
            renderTask := some 0 },
    tasks := [VTask.renderDraw 0 1 1 6],
    destroys := [], cancelled := [0],
    surface := some (0, 1, 1, 6), nextRid := 1 }

/-- Witness for `cancelled_render_silent` at `cancelledWitnessConfig`. -/
theorem cancelled_render_silent_witness :
    (stepV cancelledWitnessConfig (VCmd.resume 0)).surface
        = cancelledWitnessConfig.surface
    ∧ (stepV cancelledWitnessConfig (VCmd.resume 0)).st.error
        = cancelledWitnessConfig.st.error
    ∧ surfaceWriter cancelledWitnessConfig = some 0 := by
  have h := cancelled_render_silent
  exact ⟨(h.1 cancelledWitnessConfig 0 0 1 1 6 (by decide) (by decide)).1,
    (h.1 cancelledWitnessConfig 0 0 1 1 6 (by decide) (by decide)).2.1,
    h.2 cancelledWitnessConfig [VCmd.resume 0] 0 (by decide) (by decide)⟩

/-! ## Scale invariant -/

theorem stepV_scale_bounds (c : Config) (cmd : VCmd)
    (h2 : 2 ≤ c.st.scaleQ) (h12 : c.st.scaleQ ≤ 12) :
    2 ≤ (stepV c cmd).st.scaleQ ∧ (stepV c cmd).st.scaleQ ≤ 12 := by
  cases cmd with
  | load f =>
      simp only [stepV, loadStart]
      split <;> exact ⟨by simp, by simp⟩
  | next =>
      simp only [stepV]
      split
      · rw [renderStart_st]
        exact ⟨h2, h12⟩
      · exact ⟨h2, h12⟩
  | prev =>
      simp only [stepV]
      split
      · rw [renderStart_st]
        exact ⟨h2, h12⟩
      · exact ⟨h2, h12⟩
  | zoomIn =>
      simp only [stepV]
      split
      · rw [renderStart_st]
        dsimp only
        constructor <;> omega
      · exact ⟨h2, h12⟩
  | zoomOut =>
      simp only [stepV]
      split
      · rw [renderStart_st]
        dsimp only
        constructor <;> omega
      · exact ⟨h2, h12⟩
  | resume i =>
      simp only [stepV]
      split
      · exact ⟨h2, h12⟩
      · unfold resumeTask
        split
        · exact ⟨h2, h12⟩
        · exact ⟨h2, h12⟩
        · split
          · dsimp only
            rw [renderStart_st]
            exact ⟨h2, h12⟩
          · exact ⟨h2, h12⟩
        · exact ⟨h2, h12⟩
        · split <;> exact ⟨h2, h12⟩

theorem runV_scale_bounds (cmds : List VCmd) :
    ∀ c : Config, 2 ≤ c.st.scaleQ → c.st.scaleQ ≤ 12 →
      2 ≤ (runV c cmds).st.scaleQ ∧ (runV c cmds).st.scaleQ ≤ 12 := by
  induction cmds with
  | nil => exact fun c h2 h12 => ⟨h2, h12⟩
  | cons cmd rest ih =>
      intro c h2 h12
      have h := stepV_scale_bounds c cmd h2 h12
      exact ih (stepV c cmd) h.1 h.2

/-- C7: the scale invariant.  (1) In every reachable configuration the
scale lies in `[0.5, 3.0]`.  (2) `zoomIn()` at the upper bound and
`zoomOut()` at the lower bound are complete no-ops: the whole
configuration is unchanged, so in particular no render is requested.
(3) Whenever `zoomIn()`/`zoomOut()` do change the scale, they change it
by exactly `0.25`.  (`load` resets the scale to its default `1.5`.) -/
theorem scale_invariant_and_zoom_steps :
    (∀ cmds : List VCmd,
        (1:ℚ)/2 ≤ (runV initViewer cmds).st.scaleVal
        ∧ (runV initViewer cmds).st.scaleVal ≤ 3)
    ∧ (∀ c : Config, 12 ≤ c.st.scaleQ → stepV c VCmd.zoomIn = c)
    ∧ (∀ c : Config, c.st.scaleQ ≤ 2 → stepV c VCmd.zoomOut = c)
    ∧ (∀ c : Config,
        (stepV c VCmd.zoomIn).st.scaleVal = c.st.scaleVal
        ∨ (stepV c VCmd.zoomIn).st.scaleVal = c.st.scaleVal + 1/4)
    ∧ (∀ c : Config,
        (stepV c VCmd.zoomOut).st.scaleVal = c.st.scaleVal
        ∨ (stepV c VCmd.zoomOut).st.scaleVal = c.st.scaleVal - 1/4) := by
  refine ⟨?_, ?_, ?_, ?_, ?_⟩
  · intro cmds
    have h := runV_scale_bounds cmds initViewer (by decide) (by decide)
    have hq2 : (2:ℚ) ≤ ((runV initViewer cmds).st.scaleQ : ℚ) := by
      exact_mod_cast h.1
    have hq12 : ((runV initViewer cmds).st.scaleQ : ℚ) ≤ 12 := by
      exact_mod_cast h.2
    rw [ViewerState.scaleVal]
    constructor <;> linarith
  · intro c h
    simp only [stepV]
    rw [if_neg (by omega)]
  · intro c h
    simp only [stepV]
    rw [if_neg (by omega)]
  · intro c
    by_cases hq : c.st.scaleQ < 12
    · right
      simp only [stepV]
      rw [if_pos hq, renderStart_st]
      have hmin : min 12 (c.st.scaleQ + 1) = c.st.scaleQ + 1 := by omega
      simp only [ViewerState.scaleVal]
      rw [hmin]
      push_cast
      ring
    · left
      simp only [stepV]
      rw [if_neg hq]
  · intro c
    by_cases hq : 2 < c.st.scaleQ
    · right
      simp only [stepV]
      rw [if_pos hq, renderStart_st]
      simp only [ViewerState.scaleVal]
      rw [Nat.cast_sub (by omega)]
      push_cast
      ring
    · left
      simp only [stepV]
      rw [if_neg hq]

/-- A ready configuration already at the maximal scale. -/
def zoomMaxConfig : Config :=
  { st := { isLoading := false, error := none, currentPage := 1,
            totalPages := 5, scaleQ := 12, pdfDoc := some 1,
            renderTask := none },
    tasks := [], destroys := [], cancelled := [], surface := none,
    nextRid := 0 }

/-- Witness for `scale_invariant_and_zoom_steps`: the bounds hold after a
concrete run, and `zoomIn` at the maximal scale leaves the whole
configuration unchanged. -/
theorem scale_invariant_and_zoom_steps_witness :
    ((1:ℚ)/2 ≤ (runV initViewer (loadSeq docC)).st.scaleVal
      ∧ (runV initViewer (loadSeq docC)).st.scaleVal ≤ 3)
    ∧ stepV zoomMaxConfig VCmd.zoomIn = zoomMaxConfig := by
  exact ⟨scale_invariant_and_zoom_steps.1 (loadSeq docC),
    scale_invariant_and_zoom_steps.2.1 zoomMaxConfig (by decide)⟩

/-! ## Page invariant under non-overlapping loads -/

/-- Is this pending task part of a `loadPdf` call? -/
def isLoadTask : VTask → Bool
  | .loadDestroy _ => true
  | .loadBuf _ => true
  | .loadGet _ => true
  | _ => false

/-- Scheduling side condition: a `load` command is only issued while no
earlier load is still pending (loads do not overlap). -/
def seqOk (c : Config) : VCmd → Bool
  | .load _ => c.tasks.all (fun t => !isLoadTask t)
  | _ => true

/-- The whole schedule obeys `seqOk` at every step. -/
def seqSched : Config → List VCmd → Bool
  | _, [] => true
  | c, cmd :: rest => seqOk c cmd && seqSched (stepV c cmd) rest

/-- Invariant: the page fields are sane, at most one load is in flight,
and while a load is in flight the page count is 0 and the page is 1. -/
def PageInv (c : Config) : Prop :=
  1 ≤ c.st.currentPage
  ∧ (0 < c.st.totalPages → c.st.currentPage ≤ c.st.totalPages)
  ∧ (c.st.totalPages = 0 → c.st.currentPage = 1)
  ∧ c.tasks.countP (fun t => isLoadTask t) ≤ 1
  ∧ ((∃ t ∈ c.tasks, isLoadTask t = true) →
      c.st.totalPages = 0 ∧ c.st.currentPage = 1)

theorem countP_of_getElem (p : VTask → Bool) (l : List VTask) :
    ∀ (i : Nat) (t : VTask), l[i]? = some t →
      l.countP p = (l.eraseIdx i).countP p + (if p t then 1 else 0) := by
  induction l with
  | nil => intro i t h; simp at h
  | cons x xs ih =>
      intro i t h
      cases i with
      | zero =>
          simp only [List.getElem?_cons_zero, Option.some.injEq] at h
          subst h
          simp [List.eraseIdx, List.countP_cons]
      | succ j =>
          simp only [List.getElem?_cons_succ] at h
          simp only [List.eraseIdx, List.countP_cons, ih j t h]
          ring

/-- `renderStart` either leaves the task queue unchanged or appends one
render task; in both cases the state is untouched. -/
theorem renderStart_loadtasks (p : Nat) (c : Config) :
    (renderStart p c).tasks = c.tasks
    ∨ ∃ rid d q, (renderStart p c).tasks = c.tasks ++ [VTask.renderGetPage rid d q] := by
  unfold renderStart
  split
  · exact Or.inl rfl
  · split
    · exact Or.inl rfl
    · split
      · exact Or.inr ⟨_, _, _, rfl⟩
      · exact Or.inr ⟨_, _, _, rfl⟩

theorem pageInv_renderStart (p : Nat) (c : Config) (h : PageInv c) :
    PageInv (renderStart p c) := by
  obtain ⟨h1, h2, h3, h4, h5⟩ := h
  have hst := renderStart_st p c
  rcases renderStart_loadtasks p c with ht | ⟨rid, d, q, ht⟩
  · exact ⟨by rw [hst]; exact h1,
      by rw [hst]; exact h2,
      by rw [hst]; exact h3,
      by rw [ht]; exact h4,
      by rw [ht, hst]; exact h5⟩
  · refine ⟨by rw [hst]; exact h1,
      by rw [hst]; exact h2,
      by rw [hst]; exact h3,
      ?_, ?_⟩
    · rw [ht]
      simp only [List.countP_append, List.countP_cons, List.countP_nil, isLoadTask]
      simpa using h4
    · rw [ht, hst]
      rintro ⟨t, htm, hload⟩
      rcases List.mem_append.mp htm with hmem | hmem
      · exact h5 ⟨t, hmem, hload⟩
      · simp at hmem
        subst hmem
        simp [isLoadTask] at hload

theorem pageInv_after_renderStart_wrap (p : Nat) (c : Config)
    (h : PageInv c) :
    PageInv { renderStart p c with
              st := { (renderStart p c).st with isLoading := false } } := by
  obtain ⟨h1, h2, h3, h4, h5⟩ := pageInv_renderStart p c h
  exact ⟨h1, h2, h3, h4, h5⟩

theorem stepV_page_inv (c : Config) (cmd : VCmd)
    (hinv : PageInv c) (hok : seqOk c cmd = true) : PageInv (stepV c cmd) := by
  obtain ⟨h1, h2, h3, h4, h5⟩ := hinv
  cases cmd with
  | load f =>
      have hall : ∀ t ∈ c.tasks, isLoadTask t = false := by
        intro t ht
        have h7 : c.tasks.all (fun t => !isLoadTask t) = true := hok
        have := List.all_eq_true.mp h7 t ht
        simpa using this
      have hcount : c.tasks.countP (fun t => isLoadTask t) = 0 :=
        List.countP_eq_zero.mpr (fun t ht => by simp [hall t ht])
      simp only [stepV, loadStart]
      split
      · refine ⟨le_refl 1, by simp, fun _ => rfl, ?_, fun _ => ⟨rfl, rfl⟩⟩
        show (c.tasks ++ [VTask.loadDestroy f]).countP (fun t => isLoadTask t) ≤ 1
        rw [List.countP_append, hcount]
        simp [isLoadTask]
      · refine ⟨le_refl 1, by simp, fun _ => rfl, ?_, fun _ => ⟨rfl, rfl⟩⟩
        show (c.tasks ++ [VTask.loadBuf f]).countP (fun t => isLoadTask t) ≤ 1
        rw [List.countP_append, hcount]
        simp [isLoadTask]
  | next =>
      simp only [stepV]
      split
      · rename_i hg
        apply pageInv_renderStart
        refine ⟨?_, ?_, ?_, h4, ?_⟩
        · show 1 ≤ c.st.currentPage + 1
          omega
        · show 0 < c.st.totalPages → c.st.currentPage + 1 ≤ c.st.totalPages
          omega
        · show c.st.totalPages = 0 → c.st.currentPage + 1 = 1
          omega
        · intro hex
          have := h5 hex
          show c.st.totalPages = 0 ∧ c.st.currentPage + 1 = 1
          omega
      · exact ⟨h1, h2, h3, h4, h5⟩
  | prev =>
      simp only [stepV]
      split
      · rename_i hg
        apply pageInv_renderStart
        refine ⟨?_, ?_, ?_, h4, ?_⟩
        · show 1 ≤ c.st.currentPage - 1
          omega
        · show 0 < c.st.totalPages → c.st.currentPage - 1 ≤ c.st.totalPages
          intro h0
          have := h2 h0
          omega
        · show c.st.totalPages = 0 → c.st.currentPage - 1 = 1
          intro h0
          have := h3 h0
          omega
        · intro hex
          have := h5 hex
          show c.st.totalPages = 0 ∧ c.st.currentPage - 1 = 1
          omega
      · exact ⟨h1, h2, h3, h4, h5⟩
  | zoomIn =>
      simp only [stepV]
      split
      · apply pageInv_renderStart
        exact ⟨h1, h2, h3, h4, h5⟩
      · exact ⟨h1, h2, h3, h4, h5⟩
  | zoomOut =>
      simp only [stepV]
      split
      · apply pageInv_renderStart
        exact ⟨h1, h2, h3, h4, h5⟩
      · exact ⟨h1, h2, h3, h4, h5⟩
  | resume i =>
      simp only [stepV]
      split
      · exact ⟨h1, h2, h3, h4, h5⟩
      · rename_i t ht
        have hmem : t ∈ c.tasks := List.getElem?_mem ht
        have hcnt := countP_of_getElem (fun t => isLoadTask t) c.tasks i t ht
        cases t with
        | loadDestroy f =>
            have hpend := h5 ⟨_, hmem, rfl⟩
            have hcnt2 : c.tasks.countP (fun t => isLoadTask t)
                = (c.tasks.eraseIdx i).countP (fun t => isLoadTask t) + 1 := hcnt
            refine ⟨h1, h2, h3, ?_, fun _ => hpend⟩
            show (c.tasks.eraseIdx i ++ [VTask.loadBuf f]).countP
                (fun t => isLoadTask t) ≤ 1
            rw [List.countP_append]
            have hone : List.countP (fun t => isLoadTask t) [VTask.loadBuf f] = 1 := rfl
            rw [hone]
            omega
        | loadBuf f =>
            have hpend := h5 ⟨_, hmem, rfl⟩
            have hcnt2 : c.tasks.countP (fun t => isLoadTask t)
                = (c.tasks.eraseIdx i).countP (fun t => isLoadTask t) + 1 := hcnt
            refine ⟨h1, h2, h3, ?_, fun _ => hpend⟩
            show (c.tasks.eraseIdx i ++ [VTask.loadGet f]).countP
                (fun t => isLoadTask t) ≤ 1
            rw [List.countP_append]
            have hone : List.countP (fun t => isLoadTask t) [VTask.loadGet f] = 1 := rfl
            rw [hone]
            omega
        | loadGet f =>
            have hpend := h5 ⟨_, hmem, rfl⟩
            have hcnt2 : c.tasks.countP (fun t => isLoadTask t)
                = (c.tasks.eraseIdx i).countP (fun t => isLoadTask t) + 1 := hcnt
            have hzero : (c.tasks.eraseIdx i).countP (fun t => isLoadTask t) = 0 := by
              omega
            have hnoload : ∀ t ∈ c.tasks.eraseIdx i, ¬ isLoadTask t = true := by
              have := List.countP_eq_zero.mp hzero
              intro t htm
              exact this t htm
            have hinner : PageInv
                (Config.mk
                  { c.st with pdfDoc := some f.docId, totalPages := f.numPages }
                  (c.tasks.eraseIdx i) c.destroys c.cancelled c.surface c.nextRid) := by
              refine ⟨?_, ?_, ?_, ?_, ?_⟩
              · show 1 ≤ c.st.currentPage
                omega
              · show 0 < f.numPages → c.st.currentPage ≤ f.numPages
                intro _
                omega
              · show f.numPages = 0 → c.st.currentPage = 1
                intro _
                exact hpend.2
              · show (c.tasks.eraseIdx i).countP (fun t => isLoadTask t) ≤ 1
                omega
              · rintro ⟨t, htm, hload⟩
                exact absurd hload (hnoload t htm)
            simp only [resumeTask]
            split
            · exact pageInv_after_renderStart_wrap c.st.currentPage _ hinner
            · refine ⟨h1, h2, h3, ?_, ?_⟩
              · show (c.tasks.eraseIdx i).countP (fun t => isLoadTask t) ≤ 1
                omega
              · rintro ⟨t, htm, hload⟩
                exact absurd hload (hnoload t htm)
        | renderGetPage r d q =>
            have hcnt2 : c.tasks.countP (fun t => isLoadTask t)
                = (c.tasks.eraseIdx i).countP (fun t => isLoadTask t) := hcnt
            refine ⟨h1, h2, h3, ?_, ?_⟩
            · show (c.tasks.eraseIdx i ++ [VTask.renderDraw r d q c.st.scaleQ]).countP
                  (fun t => isLoadTask t) ≤ 1
              rw [List.countP_append]
              have hone : List.countP (fun t => isLoadTask t)
                  [VTask.renderDraw r d q c.st.scaleQ] = 0 := rfl
              rw [hone]
              omega
            · rintro ⟨t, htm, hload⟩
              rcases List.mem_append.mp htm with hm | hm
              · exact h5 ⟨t, List.mem_of_mem_eraseIdx hm, hload⟩
              · simp at hm
                subst hm
                simp [isLoadTask] at hload
        | renderDraw r d q sQ =>
            have hcnt2 : c.tasks.countP (fun t => isLoadTask t)
                = (c.tasks.eraseIdx i).countP (fun t => isLoadTask t) := hcnt
            have hcnt' : (c.tasks.eraseIdx i).countP (fun t => isLoadTask t) ≤ 1 := by
              omega
            simp only [resumeTask]
            split
            · refine ⟨h1, h2, h3, hcnt', ?_⟩
              rintro ⟨t, htm, hload⟩
              exact h5 ⟨t, List.mem_of_mem_eraseIdx htm, hload⟩
            · refine ⟨h1, h2, h3, hcnt', ?_⟩
              rintro ⟨t, htm, hload⟩
              exact h5 ⟨t, List.mem_of_mem_eraseIdx htm, hload⟩

theorem runV_page_inv (cmds : List VCmd) :
    ∀ c : Config, PageInv c → seqSched c cmds = true → PageInv (runV c cmds) := by
  induction cmds with
  | nil => exact fun c h _ => h
  | cons cmd rest ih =>
      intro c h hs
      rw [seqSched, Bool.and_eq_true] at hs
      exact ih (stepV c cmd) (stepV_page_inv c cmd h hs.1) hs.2

/-- C8 (amended): with overlapping loads the invariant can be violated
(`page_invariant_violated_cx`); under the scheduling condition that a
new load is only issued once no earlier load is pending (`seqSched`),
the page invariant holds after every operation: `1 ≤ currentPage`, and
once `pageCount > 0`, `currentPage ≤ pageCount`.  Independently of any
schedule, `nextPage()` at (or beyond) the last page and `prevPage()` at
page 1 leave the whole configuration unchanged — no state change and no
render request. -/
theorem page_invariant_sequential_loads :
    (∀ cmds : List VCmd, seqSched initViewer cmds = true →
        1 ≤ (runV initViewer cmds).st.currentPage
        ∧ (0 < (runV initViewer cmds).st.totalPages →
            (runV initViewer cmds).st.currentPage
              ≤ (runV initViewer cmds).st.totalPages))
    ∧ (∀ c : Config, c.st.totalPages ≤ c.st.currentPage →
        stepV c VCmd.next = c)
    ∧ (∀ c : Config, c.st.currentPage ≤ 1 → stepV c VCmd.prev = c) := by
  refine ⟨?_, ?_, ?_⟩
  · intro cmds hs
    have hinit : PageInv initViewer := by
      refine ⟨by decide, by decide, by decide, by decide, ?_⟩
      rintro ⟨t, htm, _⟩
      simp [initViewer] at htm
    have h := runV_page_inv cmds initViewer hinit hs
    exact ⟨h.1, h.2.1⟩
  · intro c h
    simp only [stepV]
    rw [if_neg (by omega)]
  · intro c h
    simp only [stepV]
    rw [if_neg (by omega)]

/-- A ready configuration on the last page of a five-page document. -/
def pageMaxConfig : Config :=
  { st := { isLoading := false, error := none, currentPage := 5,
            totalPages := 5, scaleQ := 6, pdfDoc := some 1,
            renderTask := none },
    tasks := [], destroys := [], cancelled := [], surface := none,
    nextRid := 0 }

/-- Witness for `page_invariant_sequential_loads`: the invariant after a
concrete sequential load, and `nextPage()` at the last page as a no-op. -/
theorem page_invariant_sequential_loads_witness :
    (1 ≤ (runV initViewer (loadSeq docC)).st.currentPage
      ∧ (0 < (runV initViewer (loadSeq docC)).st.totalPages →
          (runV initViewer (loadSeq docC)).st.currentPage
            ≤ (runV initViewer (loadSeq docC)).st.totalPages))
    ∧ stepV pageMaxConfig VCmd.next = pageMaxConfig := by
  exact ⟨page_invariant_sequential_loads.1 (loadSeq docC) (by decide),
    page_invariant_sequential_loads.2.1 pageMaxConfig (by decide)⟩
